import Mathlib

/-!
Verification of the experiment-orchestration and measurement layer of
projects/l2_pooling/multi_column_synapse_sampling.py.

The pure measurement functions (locateConvergencePoint,
averageConvergencePoint, getProfileInfo) are embedded directly.  The
trial runner (runExperiment) and the sweep orchestrator
(experimentVaryingSynapseSampling) are embedded over an abstract
external world: the learning/inference engine (L4L2Experiment), the
object machine (createObjectMachine) and the stdlib shuffle are
supplied as a parameter structure, since their code lives outside the
analysed file.  Python dictionaries are modelled as association lists
with unique keys; Python floats are modelled as exact rationals;
a Python exception is modelled by an Option returning none.
-/

set_option autoImplicit false

namespace SynapseSampling

universe u v

/-! ## Substring test (the Python expression pat in key on strings) -/

/-- Decides whether the first list is a prefix of the second. -/
def seqStartsWith {α : Type u} [DecidableEq α] : List α → List α → Bool
  | [], _ => true
  | _ :: _, [] => false
  | p :: ps, h :: hs => if p = h then seqStartsWith ps hs else false

/-- Decides whether the first list occurs as a contiguous subsequence of the second. -/
def seqContains {α : Type u} [DecidableEq α] (pat : List α) : List α → Bool
  | [] => pat.isEmpty
  | h :: hs => seqStartsWith pat (h :: hs) || seqContains pat hs

/-- Embedding of the Python substring test pat in hay for strings. -/
def pyIn (pat hay : String) : Bool :=
  seqContains pat.data hay.data

/-! ## ConvergenceDetector: locateConvergencePoint (source lines 101 to 113)

The Python loop enumerates the reversed list with an index and returns
on the first element different from the target; falling off the loop
returns 0. -/

/-- Loop body of locateConvergencePoint: walks the reversed series with
the running reverse index, where n is the length of the whole series. -/
def lcpGo {α : Type u} [DecidableEq α] (n : Nat) (targetValue : α) : List α → Nat → Nat
  | [], _ => 0
  | v :: rest, i => if v ≠ targetValue then n - i else lcpGo n targetValue rest (i + 1)

/-- Embedding of locateConvergencePoint: walk backwards through stats
until the first point that diverges from targetValue; if no point
diverges, return 0. -/
def locateConvergencePoint {α : Type u} [DecidableEq α] (stats : List α) (targetValue : α) : Nat :=
  lcpGo stats.length targetValue stats.reverse 0

/-! ## ConvergenceDetector: averageConvergencePoint (source lines 116 to 130)

The Python function iterates over every trace bundle and over every
trace key containing the given substring, accumulating the sum and the
count of convergence points, and divides at the end.  The division
float(itSum)/itNum raises ZeroDivisionError when itNum is 0; the
embedding returns none in exactly that case and there is no earlier
guard, mirroring the source. -/

/-- Inference statistics of one run: a mapping from trace name to the
per-step observed values, modelled as an association list. -/
abbrev TraceBundle (α : Type u) : Type u := List (String × List α)

/-- Inner loop body of averageConvergencePoint: accumulates the sum and
count of convergence points over the traces whose key contains pre. -/
def accumTrace {α : Type u} [DecidableEq α] (pre : String) (t : α)
    (acc : Nat × Nat) (kv : String × List α) : Nat × Nat :=
  if pyIn pre kv.1 then (acc.1 + locateConvergencePoint kv.2 t, acc.2 + 1) else acc

/-- Python float division of two nonnegative integers, as an exact rational. -/
def pyFloatDiv (a b : Nat) : ℚ := (a : ℚ) / (b : ℚ)

/-- Embedding of averageConvergencePoint.  Returns none exactly when the
Python code would raise ZeroDivisionError at float(itSum)/itNum, that
is, when no trace name in any bundle contains pre as a substring. -/
def averageConvergencePoint {α : Type u} [DecidableEq α]
    (inferenceStats : List (TraceBundle α)) (pre : String) (targetValue : α) : Option ℚ :=
  let acc := inferenceStats.foldl (fun a stats => stats.foldl (accumTrace pre targetValue) a) (0, 0)
  if acc.2 = 0 then none else some (pyFloatDiv acc.1 acc.2)

/-- Convergence points of every matching trace, flattened across all bundles. -/
def matchingPoints {α : Type u} [DecidableEq α]
    (inferenceStats : List (TraceBundle α)) (pre : String) (t : α) : List Nat :=
  (inferenceStats.map (fun stats =>
    (stats.filter (fun kv => pyIn pre kv.1)).map
      (fun kv => locateConvergencePoint kv.2 t))).flatten

/-- Demonstration bundles from the spec: two bundles, each with a single
matching trace, whose convergence points are 2 and 4. -/
def demoBundles : List (TraceBundle Nat) :=
  [[("L2 Representation C0", [40, 1, 40, 40])],
   [("L2 Representation C0", [40, 40, 40, 1])]]

/-! ## ProfileAggregator: getProfileInfo (source lines 267 to 304)

The Python code starts the elapsed-time accumulator at 0.000001, adds the
elapsed time of every region timer, sorts the region names, and walks the
regions in sorted order building per-region rows whose percentage column
divides by that total; it returns the total elapsed time of the regions
whose name contains L2Column. -/

/-- Compute-timer report of one region of the network, as read from the
external engine: region name, timer start count, elapsed time. -/
structure Region where
  name : String
  startCount : Nat
  elapsed : ℚ

/-- Total elapsed compute time over all regions.  The accumulator starts
at 0.000001 rather than 0, mirroring the source. -/
def totalComputeTime (regionList : List Region) : ℚ :=
  regionList.foldl (fun t r => t + r.elapsed) (1 / 1000000)

/-- Insertion into a list of regions sorted by name. -/
def insertByName (r : Region) : List Region → List Region
  | [] => [r]
  | x :: xs => if r.name ≤ x.name then r :: x :: xs else x :: insertByName r xs

/-- Regions sorted by name; the Python code sorts the region names and
iterates in that order. -/
def sortByName (l : List Region) : List Region := l.foldr insertByName []

/-- Accumulator of the profiling loop: running maximum start count, the
profile rows (name, start count, elapsed, percentage share, per-call
time), and the running L2 and L4 elapsed totals. -/
structure ProfileAcc where
  count : Nat
  rows : List (String × Nat × ℚ × ℚ × ℚ)
  l2Time : ℚ
  l4Time : ℚ

/-- Loop body of getProfileInfo over one region; the percentage column of
the row divides by the given total. -/
def profileStep (totalTime : ℚ) (st : ProfileAcc) (r : Region) : ProfileAcc :=
  let count := max r.startCount st.count
  let rows := st.rows ++ [(r.name, r.startCount, r.elapsed,
    100 * r.elapsed / totalTime, r.elapsed / (max r.startCount 1 : ℚ))]
  if pyIn "L2Column" r.name then
    { count := count, rows := rows, l2Time := st.l2Time + r.elapsed, l4Time := st.l4Time }
  else if pyIn "L4Column" r.name then
    { count := count, rows := rows, l2Time := st.l2Time, l4Time := st.l4Time + r.elapsed }
  else
    { count := count, rows := rows, l2Time := st.l2Time, l4Time := st.l4Time }

/-- Embedding of getProfileInfo: builds the profile rows against the
epsilon-floored total and returns the elapsed time summed over regions
whose name contains L2Column. -/
def getProfileInfo (regionList : List Region) : ℚ :=
  ((sortByName regionList).foldl (profileStep (totalComputeTime regionList))
    { count := 1, rows := [], l2Time := 0, l4Time := 0 }).l2Time

/-! ## Python values and dictionaries

The args dictionary of runExperiment holds ints, floats, bools, strings,
None, nested parameter dictionaries, and (after the call) the generated
object set.  A dictionary is an association list with unique keys; update
replaces the binding of an existing key or appends a new one, so lookup
behaves exactly like Python dict assignment.  Obj is the abstract type of
object sets produced by the external object machine. -/

inductive PyVal (Obj : Type u) : Type u where
  | int (n : Int)
  | rat (q : ℚ)
  | bool (b : Bool)
  | str (s : String)
  | pynone
  | dict (entries : List (String × PyVal Obj))
  | objs (o : Obj)

/-- Python dictionary with string keys. -/
abbrev PyDict (Obj : Type u) : Type u := List (String × PyVal Obj)

/-- Python dict assignment d[k] = v: replaces the binding of k if present,
otherwise adds one.  Each key occurs at most once in the result, and
lookups on the result agree with the Python semantics. -/
def pyUpdate {Obj : Type u} (d : PyDict Obj) (k : String) (v : PyVal Obj) : PyDict Obj :=
  (k, v) :: d.filter (fun kv => kv.1 ≠ k)

/-! ## Typed reads from the args dictionary

args.get(key, default) returns the stored value when the key is present
and the default otherwise.  The experiment configurations under study
store well-typed values, so the reads extract the payload of the stored
constructor and fall back to the default otherwise. -/

/-- Read of an integer configuration entry with a default. -/
def getInt {Obj : Type u} (args : PyDict Obj) (k : String) (dflt : Int) : Int :=
  match List.lookup k args with
  | some (PyVal.int n) => n
  | _ => dflt

/-- Read of a boolean configuration entry with a default. -/
def getBool {Obj : Type u} (args : PyDict Obj) (k : String) (dflt : Bool) : Bool :=
  match List.lookup k args with
  | some (PyVal.bool b) => b
  | _ => dflt

/-- Read of a nested parameter dictionary with a default. -/
def getDict {Obj : Type u} (args : PyDict Obj) (k : String)
    (dflt : List (String × PyVal Obj)) : List (String × PyVal Obj) :=
  match List.lookup k args with
  | some (PyVal.dict d) => d
  | _ => dflt

/-! ## Default layer parameters (source lines 46 to 98) -/

/-- Embedding of getL4Params: the default L4 parameter dictionary. -/
def getL4Params {Obj : Type u} : List (String × PyVal Obj) :=
  [("columnCount", PyVal.int 2048),
   ("cellsPerColumn", PyVal.int 8),
   ("formInternalBasalConnections", PyVal.bool false),
   ("learningMode", PyVal.bool true),
   ("inferenceMode", PyVal.bool true),
   ("learnOnOneCell", PyVal.bool false),
   ("initialPermanence", PyVal.rat (51 / 100)),
   ("connectedPermanence", PyVal.rat (6 / 10)),
   ("permanenceIncrement", PyVal.rat (1 / 10)),
   ("permanenceDecrement", PyVal.rat (2 / 100)),
   ("minThreshold", PyVal.int 10),
   ("predictedSegmentDecrement", PyVal.rat (2 / 1000)),
   ("activationThreshold", PyVal.int 13),
   ("maxNewSynapseCount", PyVal.int 20),
   ("defaultOutputType", PyVal.str "predictedActiveCells"),
   ("implementation", PyVal.str "etm_cpp"),
   ("seed", PyVal.int 41)]

/-- Embedding of getL2Params: the default L2 parameter dictionary. -/
def getL2Params {Obj : Type u} : List (String × PyVal Obj) :=
  [("columnCount", PyVal.int 1024),
   ("inputWidth", PyVal.int (2048 * 8)),
   ("learningMode", PyVal.bool true),
   ("inferenceMode", PyVal.bool true),
   ("initialPermanence", PyVal.rat (41 / 100)),
   ("connectedPermanence", PyVal.rat (5 / 10)),
   ("permanenceIncrement", PyVal.rat (1 / 10)),
   ("permanenceDecrement", PyVal.rat (2 / 100)),
   ("numActiveColumnsPerInhArea", PyVal.int 40),
   ("synPermProximalInc", PyVal.rat (1 / 10)),
   ("synPermProximalDec", PyVal.rat (1 / 1000)),
   ("initialProximalPermanence", PyVal.rat (6 / 10)),
   ("minThresholdDistal", PyVal.int 10),
   ("minThresholdProximal", PyVal.int 10),
   ("predictedSegmentDecrement", PyVal.rat (2 / 1000)),
   ("activationThresholdDistal", PyVal.int 13),
   ("maxNewProximalSynapseCount", PyVal.int 20),
   ("maxNewDistalSynapseCount", PyVal.int 20),
   ("maxSynapsesPerDistalSegment", PyVal.int 255),
   ("maxSynapsesPerProximalSegment", PyVal.int 2000),
   ("seed", PyVal.int 41)]

/-! ## Experiment name formatting (source lines 192 to 194) -/

/-- Zero padding of a natural number to the given width. -/
def padZeros (w : Nat) (n : Nat) : String :=
  let s := toString n
  String.mk (List.replicate (w - s.length) (Char.ofNat 48)) ++ s

/-- Python formatting %03d of an integer. -/
def pad3 (n : Int) : String :=
  if n < 0 then "-" ++ padZeros 2 n.natAbs else padZeros 3 n.toNat

/-- Embedding of the experiment name format string. -/
def expName (nO nL nF nC nT : Int) : String :=
  "convergence_O" ++ pad3 nO ++ "_L" ++ pad3 nL ++ "_F" ++ pad3 nF
    ++ "_C" ++ pad3 nC ++ "_T" ++ pad3 nT

/-! ## The abstract external world

The learning/inference engine (L4L2Experiment), the object machine
(createObjectMachine and its methods), and the stdlib shuffle live
outside the analysed file.  Modelled from the spec: the engine and the
generator are deterministic functions of their construction arguments
and inputs; the shuffle permutes its input and consumes and advances the
process-global random state, which is threaded explicitly with type R.
The object machine produces numPoints sensation pairs per object
(source docstring: the number of points on each object).  E is the
engine state, Pair the type of (location, feature) sensation pairs,
Obj the type of object sets, R the type of the global random state. -/

structure World (E : Type u) (Pair : Type u) (Obj : Type u) (R : Type u) : Type u where
  createObjectMachine : Int → Int → Obj
  createRandomObjects : Obj → Int → Int → Int → Int → Obj
  objectIds : Obj → List Nat
  objectPairs : Obj → Nat → List Pair
  getObjects : Obj → Obj
  initExperiment : String → List (String × PyVal Obj) → List (String × PyVal Obj) → Int → Int → E
  learnObjects : E → Obj → E
  resetProfile : E → E
  infer : E → Obj → Nat → Nat → List (List Pair) → E
  getInferenceStats : E → List (TraceBundle Nat)
  regions : E → List Region
  lateralCounts : E → List ℚ
  proximalCounts : E → List ℚ
  shuffle : R → List Pair → List Pair × R
  shuffle_perm : ∀ (s : R) (l : List Pair), ((shuffle s l).1).Perm l
  createRandomObjects_numPoints : ∀ (m : Obj) (nO nP nL nF : Int),
    ∀ oid ∈ objectIds (createRandomObjects m nO nP nL nF),
      (objectPairs (createRandomObjects m nO nP nL nF) oid).length = nP.toNat

variable {E : Type u} {Pair : Type u} {Obj : Type u} {R : Type u}

/-! ## Sensation sequences (source lines 218 to 237)

For each object and each column the code copies the object pairs,
shuffles them with the global random state, and appends each pair twice
in succession. -/

/-- Inner loop: stay two steps on each sensation. -/
def dup2 (objectCopy : List Pair) : List Pair :=
  objectCopy.foldl (fun sensations pair => sensations ++ [pair, pair]) []

/-- Sensations of one column: shuffle the object pairs with the global
random state, then dwell two steps on each pair. -/
def buildColumnSensations (W : World E Pair Obj R) (rng : R) (obj : List Pair) :
    List Pair × R :=
  let sr := W.shuffle rng obj
  (dup2 sr.1, sr.2)

/-- Per-column step of the sensation construction: build the sensations
of one more column from the current global random state and append them. -/
def colStep (W : World E Pair Obj R) (obj : List Pair)
    (acc : List (List Pair) × R) (_c : Nat) : List (List Pair) × R :=
  let sr := buildColumnSensations W acc.2 obj
  (acc.1 ++ [sr.1], sr.2)

/-- Sensations of all columns of one object, threading the global random
state through the per-column shuffles. -/
def buildObjectSensations (W : World E Pair Obj R) (numColumns : Nat) (obj : List Pair)
    (rng : R) : List (List Pair) × R :=
  (List.range numColumns).foldl (colStep W obj) ([], rng)

/-- Body of the inference loop over one object: build the per-column
sensations, run inference, and under profiling accumulate the L2 elapsed
time and reset the profile.  The state is (engine, random state,
accumulated inference time). -/
def inferStep (W : World E Pair Obj R) (objects : Obj) (numColumns : Nat) (profile : Bool)
    (st : E × R × ℚ) (objectId : Nat) : E × R × ℚ :=
  let obj := W.objectPairs objects objectId
  let so := buildObjectSensations W numColumns obj st.2.1
  let numSteps := (so.1.headD []).length
  let exp2 := W.infer st.1 objects objectId numSteps so.1
  if profile then
    (W.resetProfile exp2, so.2, st.2.2 + getProfileInfo (W.regions exp2))
  else
    (exp2, so.2, st.2.2)

/-! ## The trial runner runExperiment (source lines 133 to 264) -/

/-- Configuration values read from the args dictionary at the top of
runExperiment, with the defaults of the source.  The noiseLevel entry is
read but never used afterwards (source line 165, marked TODO there). -/
structure ConfigVals (Obj : Type u) : Type u where
  numObjects : Int
  numLocations : Int
  numFeatures : Int
  numColumns : Int
  profile : Bool
  noiseLevel : Option (PyVal Obj)
  numPoints : Int
  trialNum : Int
  l2Params : List (String × PyVal Obj)
  l4Params : List (String × PyVal Obj)
  objectSeed : Int

/-- Reads of the recognized configuration keys with their defaults. -/
def readConfig (args : PyDict Obj) : ConfigVals Obj :=
  { numObjects := getInt args "numObjects" 10
    numLocations := getInt args "numLocations" 10
    numFeatures := getInt args "numFeatures" 10
    numColumns := getInt args "numColumns" 2
    profile := getBool args "profile" false
    noiseLevel := List.lookup "noiseLevel" args
    numPoints := getInt args "numPoints" 10
    trialNum := getInt args "trialNum" 42
    l2Params := getDict args "l2Params" getL2Params
    l4Params := getDict args "l4Params" getL4Params
    objectSeed := getInt args "objectSeed" 41 }

/-- Result of the computational core of a trial: generated object set,
learn and infer timings, convergence point, final engine state and final
global random state. -/
structure CoreOut (Obj : Type u) (E : Type u) (R : Type u) : Type u where
  objectsOut : Obj
  l2TimeLearn : ℚ
  l2TimeInfer : ℚ
  cp : ℚ
  engine : E
  rngOut : R

/-- Computational core of runExperiment: generate the objects, build and
train the engine, run the inference loop over all objects, and compute
the average convergence point of the traces whose name contains
L2 Representation against the target value 40.  Returns none when
averageConvergencePoint raises (no matching trace).  Mirrors the source
order; the args updates are collected afterwards by finalizeArgs. -/
def runCore (W : World E Pair Obj R) (cfg : ConfigVals Obj) (rng : R) :
    Option (CoreOut Obj E R) :=
  let objects := W.createRandomObjects
    (W.createObjectMachine cfg.numColumns cfg.objectSeed)
    cfg.numObjects cfg.numPoints cfg.numLocations cfg.numFeatures
  let name := expName cfg.numObjects cfg.numLocations cfg.numFeatures cfg.numColumns cfg.trialNum
  let exp1 := W.learnObjects
    (W.initExperiment name cfg.l2Params cfg.l4Params cfg.numColumns cfg.trialNum) objects
  let l2TimeLearn : ℚ := if cfg.profile then getProfileInfo (W.regions exp1) else 0
  let loopOut := (W.objectIds objects).foldl
    (inferStep W objects cfg.numColumns.toNat cfg.profile) (W.resetProfile exp1, rng, 0)
  let l2TimeInfer : ℚ :=
    if cfg.profile then loopOut.2.2 / ((W.objectIds objects).length : ℚ) else 0
  match averageConvergencePoint (W.getInferenceStats loopOut.1) "L2 Representation" 40 with
  | none => none
  | some cp =>
      some { objectsOut := W.getObjects objects, l2TimeLearn := l2TimeLearn,
             l2TimeInfer := l2TimeInfer, cp := cp, engine := loopOut.1,
             rngOut := loopOut.2.1 }

/-- Dictionary updates performed by runExperiment on its args dictionary,
in source order: L2TimeLearn and L2TimeInfer under profiling, then the
generated objects, then the convergence point. -/
def finalizeArgs (profile : Bool) (tl ti : ℚ) (obs : Obj) (cp : ℚ) (args : PyDict Obj) :
    PyDict Obj :=
  let a1 := if profile then pyUpdate args "L2TimeLearn" (PyVal.rat tl) else args
  let a2 := if profile then pyUpdate a1 "L2TimeInfer" (PyVal.rat ti) else a1
  pyUpdate (pyUpdate a2 "objects" (PyVal.objs obs)) "convergencePoint" (PyVal.rat cp)

/-- Embedding of runExperiment: reads the configuration (including the
unused noiseLevel), runs the trial core, and returns the updated args
dictionary together with the engine instance, threading the global
random state.  Returns none when averageConvergencePoint raises. -/
def runExperiment (W : World E Pair Obj R) (args : PyDict Obj) (rng : R) :
    Option (PyDict Obj × E × R) :=
  let cfg := readConfig args
  match runCore W cfg rng with
  | none => none
  | some res =>
      some (finalizeArgs cfg.profile res.l2TimeLearn res.l2TimeInfer res.objectsOut res.cp args,
            res.engine, res.rngOut)

/-! ## Lookup behaviour of the args updates -/

/-! ## Congruence of the trial runner in the configuration mapping -/

/-- View of a trial result keeping the looked-up result entries of the
returned dictionary together with the engine and random state. -/
def outView (x : PyDict Obj × E × R) :
    Option (PyVal Obj) × Option (PyVal Obj) × Option (PyVal Obj) × Option (PyVal Obj) × E × R :=
  (List.lookup "convergencePoint" x.1, List.lookup "objects" x.1,
   List.lookup "L2TimeLearn" x.1, List.lookup "L2TimeInfer" x.1, x.2)

/-! ## Executable instantiation of the external world

Used for concrete runs of the trial runner and the sweep.  Objects are
lists of numeric sensation pairs; the engine state is the list of trace
bundles collected so far; each inference run records one bundle holding
the first-column sensation sequence under the trace name
L2 Representation C0; the global random state is a counter whose shuffle
rotates the list by the counter and then increments it. -/

/-- Engine state of the executable instantiation. -/
abbrev CEngine : Type := List (TraceBundle Nat)

/-- Object sets of the executable instantiation. -/
abbrev CObjs : Type := List (List Nat)

def cWorld : World CEngine Nat CObjs Nat where
  createObjectMachine := fun _ _ => []
  createRandomObjects := fun _ nO nP _ _ =>
    List.replicate nO.toNat ((List.range nP.toNat).map (fun i => 40 + i))
  objectIds := fun o => List.range o.length
  objectPairs := fun o i => o.getD i []
  getObjects := fun o => o
  initExperiment := fun _ _ _ _ _ => []
  learnObjects := fun e _ => e
  resetProfile := fun e => e
  infer := fun e _ _ _ pairs => e ++ [[("L2 Representation C0", pairs.headD [])]]
  getInferenceStats := fun e => e
  regions := fun _ => []
  lateralCounts := fun _ => []
  proximalCounts := fun _ => []
  shuffle := fun s l => (l.rotate s, s + 1)
  shuffle_perm := fun s l => l.rotate_perm s
  createRandomObjects_numPoints := by
    intro m nO nP nL nF oid hmem
    dsimp only at hmem ⊢
    simp only [List.length_replicate, List.mem_range] at hmem
    have hget : (List.replicate nO.toNat ((List.range nP.toNat).map (fun i => 40 + i))).getD oid []
        = (List.range nP.toNat).map (fun i => 40 + i) := by
      rw [List.getD_eq_getElem?_getD, List.getElem?_replicate, if_pos hmem]
      rfl
    rw [hget]
    simp

/-- Concrete trial configuration: one object with two points, one column,
no profiling. -/
def cArgs : PyDict CObjs :=
  [("numObjects", PyVal.int 1), ("numColumns", PyVal.int 1), ("numPoints", PyVal.int 2)]

/-- Convergence point stored in a trial result, when it is a rational. -/
def cpOf (r : Option (PyDict CObjs × CEngine × Nat)) : Option ℚ :=
  r.bind (fun x =>
    match List.lookup "convergencePoint" x.1 with
    | some (PyVal.rat q) => some q
    | _ => none)

/-- Final global random state of a trial result. -/
def rngOutOf (r : Option (PyDict CObjs × CEngine × Nat)) : Option Nat :=
  r.map (fun x => x.2.2)

/-- Concrete configuration with a noiseLevel of None. -/
def cArgsNoiseA : PyDict CObjs := ("noiseLevel", PyVal.pynone) :: cArgs

/-- Concrete configuration with a noiseLevel of 0.3. -/
def cArgsNoiseB : PyDict CObjs := ("noiseLevel", PyVal.rat (3 / 10)) :: cArgs

/-- Concrete configuration that already contains a convergencePoint
entry before the trial runs. -/
def cArgsPre : PyDict CObjs :=
  [("numObjects", PyVal.int 1), ("numColumns", PyVal.int 1), ("numPoints", PyVal.int 2),
   ("convergencePoint", PyVal.int 7)]

/-! ## Shape of the sensation sequences (claim C5) -/

/-! ## SweepOrchestrator: experimentVaryingSynapseSampling (source lines 307 to 360)

The Python function iterates maxNewProximalSynapseCount over the outer
axis, maxNewDistalSynapseCount over the inner axis, and a fixed
numRpts = 20 repeat loop; for every iteration it builds the L2 parameter
bundle with the sampling counts and their paired thresholds co-varied,
runs the trial with the repeat index as both trialNum and objectSeed,
and collects one result row. -/

/-- L2 parameter dictionary of one sweep cell: the proximal sampling
count and the proximal matching threshold are both p, and the distal
sampling count, the distal activation threshold and the distal matching
threshold are all d (source lines 315 to 321). -/
def sweepL2Params (p d : Int) : List (String × PyVal Obj) :=
  pyUpdate (pyUpdate (pyUpdate (pyUpdate (pyUpdate getL2Params
    "maxNewProximalSynapseCount" (PyVal.int p))
    "minThresholdProximal" (PyVal.int p))
    "maxNewDistalSynapseCount" (PyVal.int d))
    "activationThresholdDistal" (PyVal.int d))
    "minThresholdDistal" (PyVal.int d)

/-- Trial configuration dictionary of one sweep cell (source lines 323
to 335): the repeat index rpt is used as both trialNum and objectSeed,
and profiling is on. -/
def sweepConfig (p d : Int) (rpt : Nat) : PyDict Obj :=
  [("numObjects", PyVal.int 10),
   ("numLocations", PyVal.int 10),
   ("numFeatures", PyVal.int 7),
   ("numColumns", PyVal.int 3),
   ("trialNum", PyVal.int rpt),
   ("l4Params", PyVal.dict getL4Params),
   ("l2Params", PyVal.dict (sweepL2Params p d)),
   ("profile", PyVal.bool true),
   ("objectSeed", PyVal.int rpt)]

/-- Cells of the sweep in loop order: proximal value outer, distal value
inner, repeat index innermost. -/
def sweepCells (pList dList : List Int) (numRpts : Nat) : List (Int × Int × Nat) :=
  pList.flatMap (fun p => dList.flatMap (fun d =>
    (List.range numRpts).map (fun rpt => (p, d, rpt))))

/-- Row of the sweep result table (source lines 345 to 353). -/
structure SweepRow (Obj : Type u) : Type u where
  trial : Nat
  l2TimeLearn : Option (PyVal Obj)
  l2TimeInfer : Option (PyVal Obj)
  maxNewProximalSynapseCount : Int
  maxNewDistalSynapseCount : Int
  numLateralConnections : ℚ
  numProximalConnections : ℚ
  convergencePoint : Option (PyVal Obj)

/-- Mean of a list of rationals (np.mean). -/
def listMean (l : List ℚ) : ℚ := l.sum / (l.length : ℚ)

/-- One sweep iteration: build the cell configuration, run the trial
threading the global random state, and append the result row; a trial
failure aborts the whole sweep, as the Python exception would. -/
def mkRow (W : World E Pair Obj R) (cell : Int × Int × Nat) (results : PyDict Obj)
    (exp2 : E) : SweepRow Obj :=
  { trial := cell.2.2
    l2TimeLearn := List.lookup "L2TimeLearn" results
    l2TimeInfer := List.lookup "L2TimeInfer" results
    maxNewProximalSynapseCount := cell.1
    maxNewDistalSynapseCount := cell.2.1
    numLateralConnections := listMean (W.lateralCounts exp2)
    numProximalConnections := listMean (W.proximalCounts exp2)
    convergencePoint := List.lookup "convergencePoint" results }

def sweepStep (W : World E Pair Obj R) (st : Option (List (SweepRow Obj) × R))
    (cell : Int × Int × Nat) : Option (List (SweepRow Obj) × R) :=
  match st with
  | none => none
  | some (rows, rng) =>
      match runExperiment W (sweepConfig cell.1 cell.2.1 cell.2.2) rng with
      | none => none
      | some (results, exp2, rng2) =>
          some (rows ++ [mkRow W cell results exp2], rng2)

/-- Embedding of experimentVaryingSynapseSampling: one trial per
(proximal value, distal value, repeat) with the fixed numRpts = 20 of
the source, collecting one row per trial. -/
def experimentVaryingSynapseSampling (W : World E Pair Obj R)
    (maxNewDistalSynapseCountList maxNewProximalSynapseCountList : List Int) (rng : R) :
    Option (List (SweepRow Obj) × R) :=
  (sweepCells maxNewProximalSynapseCountList maxNewDistalSynapseCountList 20).foldl
    (sweepStep W) (some ([], rng))

/-! ## Verified properties of the embedded program -/

theorem lcpGo_of_forall_eq {α : Type u} [DecidableEq α] (n : Nat) (t : α) :
    ∀ (l : List α) (i : Nat), (∀ x ∈ l, x = t) → lcpGo n t l i = 0 := by
  intro l
  induction l with
  | nil => intro i _; rfl
  | cons v rest ih =>
      intro i h
      have hv : v = t := h v (List.mem_cons_self _ _)
      have hrec := ih (i + 1) (fun x hx => h x (List.mem_cons_of_mem _ hx))
      simp [lcpGo, hv, hrec]

theorem lcpGo_of_exists_ne {α : Type u} [DecidableEq α] (n : Nat) (t : α) :
    ∀ (l : List α) (i : Nat), (∃ x ∈ l, x ≠ t) →
      lcpGo n t l i = n - (i + l.findIdx (fun x => decide (x ≠ t))) := by
  intro l
  induction l with
  | nil => intro i h; exact absurd h (by simp)
  | cons v rest ih =>
      intro i h
      by_cases hv : v = t
      · have hrest : ∃ x ∈ rest, x ≠ t := by
          rcases h with ⟨x, hx, hxt⟩
          rcases List.mem_cons.mp hx with rfl | hx2
          · exact absurd hv hxt
          · exact ⟨x, hx2, hxt⟩
        have hrec := ih (i + 1) hrest
        have hstep : lcpGo n t (v :: rest) i = lcpGo n t rest (i + 1) := by
          simp [lcpGo, hv]
        rw [hstep, hrec, List.findIdx_cons]
        have hp : decide (v ≠ t) = false := by simp [hv]
        rw [hp]
        simp only [cond_false]
        omega
      · have hstep : lcpGo n t (v :: rest) i = n - i := by
          simp [lcpGo, hv]
        rw [hstep, List.findIdx_cons]
        have hp : decide (v ≠ t) = true := by simp [hv]
        rw [hp]
        simp only [cond_true]
        omega

theorem locateConvergencePoint_last_ne {α : Type u} [DecidableEq α]
    (t0 : α) (l : List α) (a : α) (ha : a ≠ t0) :
    locateConvergencePoint (l ++ [a]) t0 = (l ++ [a]).length := by
  unfold locateConvergencePoint
  rw [List.reverse_concat]
  simp [lcpGo, ha]

theorem locateConvergencePoint_of_getLast_ne {α : Type u} [DecidableEq α]
    (s : List α) (t : α) (hne : s ≠ []) (hlast : s.getLast hne ≠ t) :
    locateConvergencePoint s t = s.length := by
  induction s using List.reverseRecOn with
  | nil => exact absurd rfl hne
  | append_singleton L b _ =>
      have hb : b ≠ t := by
        rw [List.getLast_concat] at hlast
        exact hlast
      exact locateConvergencePoint_last_ne t L b hb

/-- Claim C1: locateConvergencePoint scans backward for the first element
different from the target; if one exists at reverse index i it returns
length minus i, if all elements equal the target it returns 0, and if
the last element already differs it returns the length. -/
theorem locateConvergencePoint_spec {α : Type u} [DecidableEq α] (s : List α) (t : α) :
    ((∃ x ∈ s, x ≠ t) →
        locateConvergencePoint s t
          = s.length - s.reverse.findIdx (fun x => decide (x ≠ t)))
    ∧ ((∀ x ∈ s, x = t) → locateConvergencePoint s t = 0)
    ∧ (∀ h : s ≠ [], s.getLast h ≠ t → locateConvergencePoint s t = s.length) := by
  refine ⟨?_, ?_, ?_⟩
  · intro h
    have h2 : ∃ x ∈ s.reverse, x ≠ t := by
      rcases h with ⟨x, hx, hxt⟩
      exact ⟨x, List.mem_reverse.mpr hx, hxt⟩
    unfold locateConvergencePoint
    rw [lcpGo_of_exists_ne _ _ _ _ h2]
    omega
  · intro h
    unfold locateConvergencePoint
    exact lcpGo_of_forall_eq _ _ _ _ (fun x hx => h x (List.mem_reverse.mp hx))
  · exact locateConvergencePoint_of_getLast_ne s t

/-- Witness for C1 at concrete inputs: the spec example series
[t, other, t, t] with t = 1 gives 2, an all-target series gives 0, and
a series whose last element differs gives its length. -/
theorem locateConvergencePoint_spec_witness :
    locateConvergencePoint [1, 2, 1, 1] 1 = 2
    ∧ locateConvergencePoint [1, 1] 1 = 0
    ∧ locateConvergencePoint [1, 2] 1 = 2 := by
  refine ⟨?_, ?_, ?_⟩
  · have h := (locateConvergencePoint_spec [1, 2, 1, 1] 1).1 ⟨2, by decide, by decide⟩
    rw [h]
    decide
  · exact (locateConvergencePoint_spec [1, 1] 1).2.1 (by decide)
  · have h := (locateConvergencePoint_spec [1, 2] 1).2.2 (by decide) (by decide)
    rw [h]
    rfl

theorem foldl_accumTrace {α : Type u} [DecidableEq α] (pre : String) (t : α) :
    ∀ (stats : List (String × List α)) (acc : Nat × Nat),
      stats.foldl (accumTrace pre t) acc
        = (acc.1 + ((stats.filter (fun kv => pyIn pre kv.1)).map
              (fun kv => locateConvergencePoint kv.2 t)).sum,
           acc.2 + (stats.filter (fun kv => pyIn pre kv.1)).length) := by
  intro stats
  induction stats with
  | nil => intro acc; simp
  | cons kv rest ih =>
      intro acc
      simp only [List.foldl_cons]
      by_cases hm : pyIn pre kv.1
      · have hfilter : List.filter (fun kv : String × List α => pyIn pre kv.1) (kv :: rest)
            = kv :: List.filter (fun kv => pyIn pre kv.1) rest := by
          simp [List.filter_cons, hm]
        rw [show accumTrace pre t acc kv = (acc.1 + locateConvergencePoint kv.2 t, acc.2 + 1)
            from by simp [accumTrace, hm]]
        rw [ih, hfilter, List.map_cons, List.sum_cons, List.length_cons, Prod.mk.injEq]
        constructor <;> omega
      · have hfilter : List.filter (fun kv : String × List α => pyIn pre kv.1) (kv :: rest)
            = List.filter (fun kv => pyIn pre kv.1) rest := by
          simp [List.filter_cons, hm]
        rw [show accumTrace pre t acc kv = acc from by simp [accumTrace, hm]]
        rw [ih, hfilter]

theorem foldl_bundles_accumTrace {α : Type u} [DecidableEq α] (pre : String) (t : α) :
    ∀ (bundles : List (TraceBundle α)) (acc : Nat × Nat),
      bundles.foldl (fun a stats => stats.foldl (accumTrace pre t) a) acc
        = (acc.1 + (matchingPoints bundles pre t).sum,
           acc.2 + (matchingPoints bundles pre t).length) := by
  intro bundles
  induction bundles with
  | nil => intro acc; simp [matchingPoints]
  | cons stats rest ih =>
      intro acc
      simp only [List.foldl_cons]
      rw [foldl_accumTrace, ih]
      simp only [matchingPoints, List.map_cons, List.flatten_cons, List.sum_append,
        List.length_append, List.length_map, Prod.mk.injEq]
      constructor <;> omega

/-- Claim C2: averageConvergencePoint is the single flat mean over every
matching trace across all bundles, that is, the sum of the convergence
points of all traces whose name contains the given substring, divided by
their total count. -/
theorem averageConvergencePoint_flat_mean {α : Type u} [DecidableEq α]
    (bundles : List (TraceBundle α)) (pre : String) (t : α)
    (h : matchingPoints bundles pre t ≠ []) :
    averageConvergencePoint bundles pre t
      = some (pyFloatDiv (matchingPoints bundles pre t).sum
          (matchingPoints bundles pre t).length) := by
  have hlen : (matchingPoints bundles pre t).length ≠ 0 := by
    intro h0
    exact h (List.eq_nil_of_length_eq_zero h0)
  simp only [averageConvergencePoint]
  rw [foldl_bundles_accumTrace]
  simp [hlen]

/-- Witness for C2: over the two demonstration bundles the matching
convergence points are 2 and 4 and the function returns exactly 3. -/
theorem averageConvergencePoint_flat_mean_witness :
    matchingPoints demoBundles "L2 Representation" 40 = [2, 4]
    ∧ averageConvergencePoint demoBundles "L2 Representation" 40
        = some (pyFloatDiv (matchingPoints demoBundles "L2 Representation" 40).sum
            (matchingPoints demoBundles "L2 Representation" 40).length)
    ∧ averageConvergencePoint demoBundles "L2 Representation" 40 = some 3 := by
  have hmp : matchingPoints demoBundles "L2 Representation" 40 = [2, 4] := by decide
  have h := averageConvergencePoint_flat_mean demoBundles "L2 Representation" 40 (by decide)
  refine ⟨hmp, h, ?_⟩
  rw [h, hmp]
  norm_num [pyFloatDiv]

/-- Claim C3: when no trace name in any bundle contains the given
substring, the code reaches the final division float(itSum)/itNum with a
zero count and fails there with ZeroDivisionError (modelled as none);
there is no explicit guard raising a configuration error earlier. -/
theorem averageConvergencePoint_no_match_fails :
    averageConvergencePoint ([[("L4 Representation C0", [40, 40])]] : List (TraceBundle Nat))
      "L2 Representation" 40 = none := by decide

theorem foldl_add_elapsed :
    ∀ (l : List Region) (init : ℚ),
      l.foldl (fun t r => t + r.elapsed) init = init + (l.map Region.elapsed).sum := by
  intro l
  induction l with
  | nil => intro init; simp
  | cons r rest ih =>
      intro init
      rw [List.foldl_cons, ih, List.map_cons, List.sum_cons]
      ring

/-- Claim C9: with nonnegative timer readings the total elapsed time used
as the percentage denominator is at least the epsilon 0.000001, hence
strictly positive and never zero, even when every region reports zero. -/
theorem totalComputeTime_pos (regionList : List Region)
    (h : ∀ r ∈ regionList, 0 ≤ r.elapsed) :
    1 / 1000000 ≤ totalComputeTime regionList
    ∧ 0 < totalComputeTime regionList
    ∧ totalComputeTime regionList ≠ 0 := by
  have hsum : 0 ≤ (regionList.map Region.elapsed).sum := by
    apply List.sum_nonneg
    intro x hx
    rcases List.mem_map.mp hx with ⟨r, hr, rfl⟩
    exact h r hr
  have htot : totalComputeTime regionList = 1 / 1000000 + (regionList.map Region.elapsed).sum :=
    foldl_add_elapsed regionList _
  have heps : (0 : ℚ) < 1 / 1000000 := by norm_num
  refine ⟨by rw [htot]; linarith, by rw [htot]; linarith, ?_⟩
  rw [htot]
  intro hzero
  linarith

/-- Witness for C9: two regions that both report zero elapsed time still
give a total of exactly the epsilon, which is positive. -/
theorem totalComputeTime_pos_witness :
    1 / 1000000 ≤ totalComputeTime [⟨"L2Column cell 0", 3, 0⟩, ⟨"L4Column cell 0", 2, 0⟩]
    ∧ 0 < totalComputeTime [⟨"L2Column cell 0", 3, 0⟩, ⟨"L4Column cell 0", 2, 0⟩]
    ∧ totalComputeTime [⟨"L2Column cell 0", 3, 0⟩, ⟨"L4Column cell 0", 2, 0⟩] ≠ 0 :=
  totalComputeTime_pos _ (by
    intro r hr
    rcases List.mem_cons.mp hr with rfl | hr2
    · norm_num
    · rcases List.mem_cons.mp hr2 with rfl | hr3
      · norm_num
      · cases hr3)

theorem lookup_filter_ne {Obj : Type u} (a k : String) (hak : a ≠ k) :
    ∀ d : PyDict Obj, List.lookup a (d.filter (fun kv => kv.1 ≠ k)) = List.lookup a d := by
  intro d
  induction d with
  | nil => rfl
  | cons kv rest ih =>
      by_cases hk : kv.1 = k
      · have hfil : List.filter (fun kv : String × PyVal Obj => kv.1 ≠ k) (kv :: rest)
            = List.filter (fun kv => kv.1 ≠ k) rest := by
          simp [List.filter_cons, hk]
        rw [hfil, ih]
        have hne : (a == kv.1) = false := by
          rw [hk]
          exact beq_false_of_ne hak
        cases kv with
        | mk k1 v1 =>
            simp only [List.lookup]
            simp only at hne
            rw [hne]
      · have hfil : List.filter (fun kv : String × PyVal Obj => kv.1 ≠ k) (kv :: rest)
            = kv :: List.filter (fun kv => kv.1 ≠ k) rest := by
          simp [List.filter_cons, hk]
        rw [hfil]
        cases kv with
        | mk k1 v1 =>
            simp only [List.lookup, ih]

theorem lookup_pyUpdate_self {Obj : Type u} (d : PyDict Obj) (k : String) (v : PyVal Obj) :
    List.lookup k (pyUpdate d k v) = some v := by
  simp [pyUpdate, List.lookup]

theorem lookup_pyUpdate_ne {Obj : Type u} (d : PyDict Obj) (a k : String) (v : PyVal Obj)
    (hak : a ≠ k) : List.lookup a (pyUpdate d k v) = List.lookup a d := by
  simp only [pyUpdate, List.lookup, beq_false_of_ne hak]
  exact lookup_filter_ne a k hak d

theorem lookup_cons_ne {Obj : Type u} (d : PyDict Obj) (a k : String) (v : PyVal Obj)
    (hak : a ≠ k) : List.lookup a ((k, v) :: d) = List.lookup a d := by
  simp only [List.lookup, beq_false_of_ne hak]

theorem getInt_congr {Obj : Type u} (a1 a2 : PyDict Obj) (k : String) (d : Int)
    (h : List.lookup k a1 = List.lookup k a2) : getInt a1 k d = getInt a2 k d := by
  simp only [getInt, h]

theorem getBool_congr {Obj : Type u} (a1 a2 : PyDict Obj) (k : String) (d : Bool)
    (h : List.lookup k a1 = List.lookup k a2) : getBool a1 k d = getBool a2 k d := by
  simp only [getBool, h]

theorem getDict_congr {Obj : Type u} (a1 a2 : PyDict Obj) (k : String)
    (d : List (String × PyVal Obj))
    (h : List.lookup k a1 = List.lookup k a2) : getDict a1 k d = getDict a2 k d := by
  simp only [getDict, h]

theorem finalizeArgs_lookup_cp (profile : Bool) (tl ti : ℚ) (obs : Obj) (cp : ℚ)
    (args : PyDict Obj) :
    List.lookup "convergencePoint" (finalizeArgs profile tl ti obs cp args)
      = some (PyVal.rat cp) := by
  simp only [finalizeArgs]
  exact lookup_pyUpdate_self _ _ _

theorem finalizeArgs_lookup_objs (profile : Bool) (tl ti : ℚ) (obs : Obj) (cp : ℚ)
    (args : PyDict Obj) :
    List.lookup "objects" (finalizeArgs profile tl ti obs cp args)
      = some (PyVal.objs obs) := by
  simp only [finalizeArgs]
  rw [lookup_pyUpdate_ne _ _ _ _ (by decide)]
  exact lookup_pyUpdate_self _ _ _

theorem finalizeArgs_lookup_tl (profile : Bool) (tl ti : ℚ) (obs : Obj) (cp : ℚ)
    (args : PyDict Obj) :
    List.lookup "L2TimeLearn" (finalizeArgs profile tl ti obs cp args)
      = if profile then some (PyVal.rat tl) else List.lookup "L2TimeLearn" args := by
  simp only [finalizeArgs]
  rw [lookup_pyUpdate_ne _ _ _ _ (by decide), lookup_pyUpdate_ne _ _ _ _ (by decide)]
  cases profile with
  | false => rfl
  | true =>
      simp only [if_true]
      rw [lookup_pyUpdate_ne _ _ _ _ (by decide)]
      exact lookup_pyUpdate_self _ _ _

theorem finalizeArgs_lookup_ti (profile : Bool) (tl ti : ℚ) (obs : Obj) (cp : ℚ)
    (args : PyDict Obj) :
    List.lookup "L2TimeInfer" (finalizeArgs profile tl ti obs cp args)
      = if profile then some (PyVal.rat ti) else List.lookup "L2TimeInfer" args := by
  simp only [finalizeArgs]
  rw [lookup_pyUpdate_ne _ _ _ _ (by decide), lookup_pyUpdate_ne _ _ _ _ (by decide)]
  cases profile with
  | false => rfl
  | true =>
      simp only [if_true]
      exact lookup_pyUpdate_self _ _ _

theorem finalizeArgs_lookup_other (profile : Bool) (tl ti : ℚ) (obs : Obj) (cp : ℚ)
    (args : PyDict Obj) (k : String) (h1 : k ≠ "convergencePoint") (h2 : k ≠ "objects")
    (h3 : k ≠ "L2TimeLearn") (h4 : k ≠ "L2TimeInfer") :
    List.lookup k (finalizeArgs profile tl ti obs cp args) = List.lookup k args := by
  simp only [finalizeArgs]
  rw [lookup_pyUpdate_ne _ _ _ _ h1, lookup_pyUpdate_ne _ _ _ _ h2]
  cases profile with
  | false => rfl
  | true =>
      simp only [if_true]
      rw [lookup_pyUpdate_ne _ _ _ _ h4, lookup_pyUpdate_ne _ _ _ _ h3]

theorem readConfig_agree (args1 args2 : PyDict Obj)
    (h : ∀ k : String, k ≠ "noiseLevel" → List.lookup k args1 = List.lookup k args2) :
    readConfig args1
      = { readConfig args2 with noiseLevel := List.lookup "noiseLevel" args1 } := by
  simp only [readConfig]
  rw [getInt_congr args1 args2 _ _ (h _ (by decide)),
    getInt_congr args1 args2 _ _ (h _ (by decide)),
    getInt_congr args1 args2 _ _ (h _ (by decide)),
    getInt_congr args1 args2 _ _ (h _ (by decide)),
    getBool_congr args1 args2 _ _ (h _ (by decide)),
    getInt_congr args1 args2 _ _ (h _ (by decide)),
    getInt_congr args1 args2 _ _ (h _ (by decide)),
    getDict_congr args1 args2 _ _ (h _ (by decide)),
    getDict_congr args1 args2 _ _ (h _ (by decide)),
    getInt_congr args1 args2 _ _ (h _ (by decide))]

theorem runCore_noiseLevel_irrelevant (W : World E Pair Obj R) (cfg : ConfigVals Obj)
    (v : Option (PyVal Obj)) (rng : R) :
    runCore W { cfg with noiseLevel := v } rng = runCore W cfg rng := rfl

theorem runExperiment_lookup_agree (W : World E Pair Obj R) (args1 args2 : PyDict Obj)
    (rng : R)
    (h : ∀ k : String, k ≠ "noiseLevel" → List.lookup k args1 = List.lookup k args2) :
    Option.map outView (runExperiment W args1 rng)
      = Option.map outView (runExperiment W args2 rng) := by
  have hcfg := readConfig_agree args1 args2 h
  simp only [runExperiment, hcfg, runCore_noiseLevel_irrelevant]
  cases hrc : runCore W (readConfig args2) rng with
  | none => rfl
  | some res =>
      simp only [Option.map, outView]
      have hprof : ({ readConfig args2 with noiseLevel := List.lookup "noiseLevel" args1 }
          : ConfigVals Obj).profile = (readConfig args2).profile := rfl
      rw [hprof]
      rw [finalizeArgs_lookup_cp, finalizeArgs_lookup_cp,
        finalizeArgs_lookup_objs, finalizeArgs_lookup_objs,
        finalizeArgs_lookup_tl, finalizeArgs_lookup_tl,
        finalizeArgs_lookup_ti, finalizeArgs_lookup_ti,
        h "L2TimeLearn" (by decide), h "L2TimeInfer" (by decide)]

/-- Claim C8: the noiseLevel configuration entry is read but has no
effect.  For two args dictionaries that agree on every key other than
noiseLevel, the trial runner produces the same convergence point, the
same generated object set, the same timing entries, the same engine
state and the same final global random state. -/
theorem noiseLevel_inert (W : World E Pair Obj R) (args1 args2 : PyDict Obj) (rng : R)
    (h : ∀ k : String, k ≠ "noiseLevel" → List.lookup k args1 = List.lookup k args2) :
    Option.map outView (runExperiment W args1 rng)
      = Option.map outView (runExperiment W args2 rng) :=
  runExperiment_lookup_agree W args1 args2 rng h

/-- Claim C4 (amended): the trial runner is deterministic in the
configuration mapping together with the global random state: two
invocations with configurations that agree on every key, under the same
global random state, produce the same convergence point, objects,
timings, engine state and final random state.  The configuration alone
does not determine the result, because the sensation shuffle draws from
the unseeded process-global random state. -/
theorem runExperiment_deterministic (W : World E Pair Obj R) (args1 args2 : PyDict Obj)
    (rng : R) (h : ∀ k : String, List.lookup k args1 = List.lookup k args2) :
    Option.map outView (runExperiment W args1 rng)
      = Option.map outView (runExperiment W args2 rng) :=
  runExperiment_lookup_agree W args1 args2 rng (fun k _ => h k)

/-- Claim C10 (amended): on a successful run the returned dictionary is
the input dictionary updated with the convergencePoint and objects
entries, plus L2TimeLearn and L2TimeInfer exactly when profiling is on;
every key other than these four keeps its original value, and a
pre-existing value under one of the four result keys is overwritten. -/
theorem runExperiment_frame (W : World E Pair Obj R) (args : PyDict Obj) (rng : R)
    (h : (runExperiment W args rng).isSome = true) :
    ((runExperiment W args rng).map (fun x =>
        ((List.lookup "convergencePoint" x.1).isSome, (List.lookup "objects" x.1).isSome))
      = some (true, true))
    ∧ (getBool args "profile" false = true →
        (runExperiment W args rng).map (fun x =>
          ((List.lookup "L2TimeLearn" x.1).isSome, (List.lookup "L2TimeInfer" x.1).isSome))
          = some (true, true))
    ∧ (getBool args "profile" false = false →
        (runExperiment W args rng).map (fun x =>
          (List.lookup "L2TimeLearn" x.1, List.lookup "L2TimeInfer" x.1))
          = some (List.lookup "L2TimeLearn" args, List.lookup "L2TimeInfer" args))
    ∧ (∀ k : String, k ≠ "convergencePoint" → k ≠ "objects" → k ≠ "L2TimeLearn" →
        k ≠ "L2TimeInfer" →
        (runExperiment W args rng).map (fun x => List.lookup k x.1)
          = some (List.lookup k args)) := by
  have hprof : (readConfig args).profile = getBool args "profile" false := rfl
  cases hrc : runCore W (readConfig args) rng with
  | none =>
      exfalso
      have hnone : runExperiment W args rng = none := by
        simp [runExperiment, hrc]
      rw [hnone] at h
      simp at h
  | some res =>
      have hre : runExperiment W args rng
          = some (finalizeArgs (readConfig args).profile res.l2TimeLearn res.l2TimeInfer
              res.objectsOut res.cp args, res.engine, res.rngOut) := by
        simp [runExperiment, hrc]
      rw [hre]
      refine ⟨?_, ?_, ?_, ?_⟩
      · simp only [Option.map, finalizeArgs_lookup_cp, finalizeArgs_lookup_objs,
          Option.isSome]
      · intro hp
        rw [hprof, hp] at *
        simp only [Option.map, finalizeArgs_lookup_tl, finalizeArgs_lookup_ti, hprof, hp,
          if_true, Option.isSome]
      · intro hp
        simp only [Option.map, finalizeArgs_lookup_tl, finalizeArgs_lookup_ti, hprof, hp,
          Bool.false_eq_true, if_false]
      · intro k h1 h2 h3 h4
        simp only [Option.map, finalizeArgs_lookup_other _ _ _ _ _ _ k h1 h2 h3 h4]

/-- Counterexample to C4 as stated: under the executable world, a first
invocation with configuration cArgs and global random state 0 yields
convergence point 4 and leaves the global state at 1; the second
invocation with the identical configuration then starts from state 1 and
yields convergence point 2.  The configuration (including every seed it
could carry) is identical, yet the convergence points differ, because
the sensation shuffle consumes the process-global random state. -/
theorem runExperiment_global_rng_cex :
    cpOf (runExperiment cWorld cArgs 0) = some (pyFloatDiv 4 1)
    ∧ rngOutOf (runExperiment cWorld cArgs 0) = some 1
    ∧ cpOf (runExperiment cWorld cArgs 1) = some (pyFloatDiv 2 1)
    ∧ pyFloatDiv 4 1 ≠ pyFloatDiv 2 1 := by
  refine ⟨rfl, rfl, rfl, ?_⟩
  norm_num [pyFloatDiv]

/-- Witness for C4 (amended) at a concrete input. -/
theorem runExperiment_deterministic_witness :
    Option.map outView (runExperiment cWorld cArgs 0)
      = Option.map outView (runExperiment cWorld cArgs 0) :=
  runExperiment_deterministic cWorld cArgs cArgs 0 (fun _ => rfl)

/-- Witness for C8 at concrete inputs: two configurations that differ
only in their noiseLevel entries produce the same results. -/
theorem noiseLevel_inert_witness :
    Option.map outView (runExperiment cWorld cArgsNoiseA 0)
      = Option.map outView (runExperiment cWorld cArgsNoiseB 0) :=
  noiseLevel_inert cWorld cArgsNoiseA cArgsNoiseB 0 (by
    intro k hk
    simp only [cArgsNoiseA, cArgsNoiseB]
    rw [lookup_cons_ne _ _ _ _ hk, lookup_cons_ne _ _ _ _ hk])

/-- Counterexample to C10 as stated: when the input dictionary already
holds a convergencePoint entry, its original value 7 does not survive
the call; the update overwrites it with the measured convergence point. -/
theorem runExperiment_frame_cex :
    List.lookup "convergencePoint" cArgsPre = some (PyVal.int 7)
    ∧ (runExperiment cWorld cArgsPre 0).map (fun x => List.lookup "convergencePoint" x.1)
        ≠ some (List.lookup "convergencePoint" cArgsPre) := by
  refine ⟨rfl, ?_⟩
  intro hcontra
  have h2 : some (some (PyVal.rat (pyFloatDiv 4 1) : PyVal CObjs))
      = some (some (PyVal.int 7)) := hcontra
  injection h2 with h3
  injection h3 with h4
  exact PyVal.noConfusion h4

/-- Witness for C10 (amended) at a concrete input. -/
theorem runExperiment_frame_witness :
    ((runExperiment cWorld cArgsPre 0).map (fun x =>
        ((List.lookup "convergencePoint" x.1).isSome, (List.lookup "objects" x.1).isSome))
      = some (true, true))
    ∧ (getBool cArgsPre "profile" false = true →
        (runExperiment cWorld cArgsPre 0).map (fun x =>
          ((List.lookup "L2TimeLearn" x.1).isSome, (List.lookup "L2TimeInfer" x.1).isSome))
          = some (true, true))
    ∧ (getBool cArgsPre "profile" false = false →
        (runExperiment cWorld cArgsPre 0).map (fun x =>
          (List.lookup "L2TimeLearn" x.1, List.lookup "L2TimeInfer" x.1))
          = some (List.lookup "L2TimeLearn" cArgsPre, List.lookup "L2TimeInfer" cArgsPre))
    ∧ (∀ k : String, k ≠ "convergencePoint" → k ≠ "objects" → k ≠ "L2TimeLearn" →
        k ≠ "L2TimeInfer" →
        (runExperiment cWorld cArgsPre 0).map (fun x => List.lookup k x.1)
          = some (List.lookup k cArgsPre)) :=
  runExperiment_frame cWorld cArgsPre 0 rfl

theorem dup2_foldl {Pr : Type u} :
    ∀ (l acc : List Pr),
      l.foldl (fun sensations pair => sensations ++ [pair, pair]) acc
        = acc ++ l.flatMap (fun p => [p, p]) := by
  intro l
  induction l with
  | nil => intro acc; simp
  | cons p rest ih =>
      intro acc
      rw [List.foldl_cons, ih, List.flatMap_cons, List.append_assoc]

theorem dup2_eq {Pr : Type u} (l : List Pr) :
    (dup2 l) = l.flatMap (fun p => [p, p]) := by
  rw [dup2, dup2_foldl]
  rfl

theorem dup2_length {Pr : Type u} (l : List Pr) :
    (dup2 l).length = 2 * l.length := by
  rw [dup2_eq]
  induction l with
  | nil => rfl
  | cons p rest ih =>
      rw [List.flatMap_cons, List.length_append, ih, List.length_cons]
      simp only [List.length_cons, List.length_nil]
      omega

theorem foldl_colStep_mem (W : World E Pair Obj R) (obj : List Pair) :
    ∀ (cols : List Nat) (acc : List (List Pair) × R) (s : List Pair),
      s ∈ (cols.foldl (colStep W obj) acc).1 →
      s ∈ acc.1 ∨ ∃ r0 : R, s = dup2 (W.shuffle r0 obj).1 := by
  intro cols
  induction cols with
  | nil => intro acc s hs; exact Or.inl hs
  | cons c rest ih =>
      intro acc s hs
      rw [List.foldl_cons] at hs
      rcases ih (colStep W obj acc c) s hs with hmem | hfound
      · rcases List.mem_append.mp hmem with h1 | h2
        · exact Or.inl h1
        · right
          rcases List.mem_singleton.mp h2 with rfl
          exact ⟨acc.2, rfl⟩
      · exact Or.inr hfound

/-- Claim C5: every per-column sensation sequence built for inference on
an object generated with numPoints points per object has length exactly
2 × numPoints, and consists of a permutation of the object pairs with
each pair dwelt on for 2 consecutive steps before the next. -/
theorem sensationSequence_spec (W : World E Pair Obj R) (m : Obj) (nO nP nL nF : Int)
    (numColumns : Nat) (oid : Nat) (rng : R)
    (hmem : oid ∈ W.objectIds (W.createRandomObjects m nO nP nL nF)) :
    ∀ s ∈ (buildObjectSensations W numColumns
        (W.objectPairs (W.createRandomObjects m nO nP nL nF) oid) rng).1,
      s.length = 2 * nP.toNat
      ∧ ∃ pm : List Pair,
          pm.Perm (W.objectPairs (W.createRandomObjects m nO nP nL nF) oid)
          ∧ s = pm.flatMap (fun p => [p, p]) := by
  intro s hs
  rw [buildObjectSensations] at hs
  rcases foldl_colStep_mem W _ (List.range numColumns) ([], rng) s hs with hnil | ⟨r0, rfl⟩
  · cases hnil
  · have hperm := W.shuffle_perm r0 (W.objectPairs (W.createRandomObjects m nO nP nL nF) oid)
    constructor
    · rw [dup2_length, hperm.length_eq, W.createRandomObjects_numPoints m nO nP nL nF oid hmem]
    · exact ⟨_, hperm, dup2_eq _⟩

/-- Witness for C5 at a concrete input: with the executable world, one
object of two points and one column, the single sensation sequence built
at global random state 0 is [40, 40, 41, 41]; it has length 4 = 2 x 2
and dwells twice on each pair of a permutation of the object. -/
theorem sensationSequence_spec_witness :
    ([40, 40, 41, 41] : List Nat).length = 2 * (2 : Int).toNat
    ∧ ∃ pm : List Nat,
        pm.Perm (cWorld.objectPairs (cWorld.createRandomObjects [] 1 2 1 1) 0)
        ∧ ([40, 40, 41, 41] : List Nat) = pm.flatMap (fun p => [p, p]) :=
  sensationSequence_spec cWorld [] 1 2 1 1 1 0 0 (by decide) [40, 40, 41, 41] (by decide)

/-- Claim C6: every trial configuration built by the sweep sets the
sampling counts and their paired thresholds together: the proximal
sampling count equals the proximal matching threshold (both p) and the
distal sampling count equals the distal activation threshold and the
distal matching threshold (all d), for every cell and every repeat. -/
theorem sweep_covaried_params {Ob : Type u} (p d : Int) (rpt : Nat) :
    List.lookup "l2Params" (sweepConfig p d rpt : PyDict Ob)
        = some (PyVal.dict (sweepL2Params p d))
    ∧ List.lookup "maxNewProximalSynapseCount" (sweepL2Params p d : List (String × PyVal Ob))
        = some (PyVal.int p)
    ∧ List.lookup "minThresholdProximal" (sweepL2Params p d : List (String × PyVal Ob))
        = some (PyVal.int p)
    ∧ List.lookup "maxNewDistalSynapseCount" (sweepL2Params p d : List (String × PyVal Ob))
        = some (PyVal.int d)
    ∧ List.lookup "activationThresholdDistal" (sweepL2Params p d : List (String × PyVal Ob))
        = some (PyVal.int d)
    ∧ List.lookup "minThresholdDistal" (sweepL2Params p d : List (String × PyVal Ob))
        = some (PyVal.int d) := by
  refine ⟨rfl, ?_, ?_, ?_, ?_, ?_⟩
  · simp only [sweepL2Params]
    rw [lookup_pyUpdate_ne _ _ _ _ (by decide), lookup_pyUpdate_ne _ _ _ _ (by decide),
      lookup_pyUpdate_ne _ _ _ _ (by decide), lookup_pyUpdate_ne _ _ _ _ (by decide)]
    exact lookup_pyUpdate_self _ _ _
  · simp only [sweepL2Params]
    rw [lookup_pyUpdate_ne _ _ _ _ (by decide), lookup_pyUpdate_ne _ _ _ _ (by decide),
      lookup_pyUpdate_ne _ _ _ _ (by decide)]
    exact lookup_pyUpdate_self _ _ _
  · simp only [sweepL2Params]
    rw [lookup_pyUpdate_ne _ _ _ _ (by decide), lookup_pyUpdate_ne _ _ _ _ (by decide)]
    exact lookup_pyUpdate_self _ _ _
  · simp only [sweepL2Params]
    rw [lookup_pyUpdate_ne _ _ _ _ (by decide)]
    exact lookup_pyUpdate_self _ _ _
  · simp only [sweepL2Params]
    exact lookup_pyUpdate_self _ _ _

theorem sweepFold_none (W : World E Pair Obj R) :
    ∀ cells : List (Int × Int × Nat), cells.foldl (sweepStep W) none = none := by
  intro cells
  induction cells with
  | nil => rfl
  | cons c rest ih => rw [List.foldl_cons]; exact ih

theorem sweepFold_length (W : World E Pair Obj R) :
    ∀ (cells : List (Int × Int × Nat)) (rows0 : List (SweepRow Obj)) (rng : R)
      (rows : List (SweepRow Obj)) (rngF : R),
      cells.foldl (sweepStep W) (some (rows0, rng)) = some (rows, rngF) →
      rows.length = rows0.length + cells.length := by
  intro cells
  induction cells with
  | nil =>
      intro rows0 rng rows rngF h
      injection h with h2
      rw [show rows = rows0 from congrArg Prod.fst h2.symm]
      simp
  | cons c rest ih =>
      intro rows0 rng rows rngF h
      rw [List.foldl_cons] at h
      cases hre : runExperiment W (sweepConfig c.1 c.2.1 c.2.2) rng with
      | none =>
          exfalso
          rw [show sweepStep W (some (rows0, rng)) c = none from by
            simp [sweepStep, hre]] at h
          rw [sweepFold_none] at h
          cases h
      | some out =>
          rw [show sweepStep W (some (rows0, rng)) c
              = some (rows0 ++ [mkRow W c out.1 out.2.1], out.2.2)
              from by simp [sweepStep, hre]] at h
          have := ih _ _ _ _ h
          rw [this]
          simp
          omega

theorem sweepCellsInner_length (dList : List Int) (p : Int) (n : Nat) :
    (dList.flatMap (fun d => (List.range n).map (fun rpt => (p, d, rpt)))).length
      = dList.length * n := by
  induction dList with
  | nil => simp
  | cons d ds ih =>
      rw [List.flatMap_cons, List.length_append, ih, List.length_map, List.length_range,
        List.length_cons]
      ring

theorem sweepCells_length (pList dList : List Int) (n : Nat) :
    (sweepCells pList dList n).length = pList.length * dList.length * n := by
  induction pList with
  | nil => simp [sweepCells]
  | cons p ps ih =>
      rw [sweepCells, List.flatMap_cons]
      rw [List.length_append, sweepCellsInner_length, show (ps.flatMap (fun p =>
        dList.flatMap (fun d => (List.range n).map (fun rpt => (p, d, rpt))))).length
          = ps.length * dList.length * n from ih, List.length_cons]
      ring

/-- Claim C7 (amended): the sweep orchestrator has no repeats parameter;
it always performs the fixed numRpts = 20 repeats per cell of the two
axes, producing exactly one row per (proximal value, distal value,
repeat index) when it completes, and every cell configuration uses the
repeat index as both the trial seed and the object-generation seed. -/
theorem sweep_rows (W : World E Pair Obj R) (dList pList : List Int) (rng : R)
    (h : (experimentVaryingSynapseSampling W dList pList rng).isSome = true) :
    (experimentVaryingSynapseSampling W dList pList rng).map (fun x => x.1.length)
      = some (pList.length * dList.length * 20)
    ∧ (∀ (p d : Int) (rpt : Nat),
        List.lookup "trialNum" (sweepConfig p d rpt : PyDict Obj) = some (PyVal.int rpt)
        ∧ List.lookup "objectSeed" (sweepConfig p d rpt : PyDict Obj)
            = some (PyVal.int rpt)) := by
  constructor
  · cases hs : experimentVaryingSynapseSampling W dList pList rng with
    | none => rw [hs] at h; cases h
    | some out =>
        rw [experimentVaryingSynapseSampling] at hs
        have hlen := sweepFold_length W _ [] rng out.1 out.2
          (by rw [hs])
        simp only [Option.map]
        rw [hlen, sweepCells_length]
        simp
  · intro p d rpt
    exact ⟨rfl, rfl⟩

/-- Counterexample to C7 as stated: the orchestrator accepts no repeats
parameter; with axes [5] and [5] it runs its fixed 20 repeats and the
completed sweep under the executable world holds exactly 20 rows, not 3. -/
theorem sweep_fixed_repeats_cex :
    (experimentVaryingSynapseSampling cWorld [5] [5] 0).map (fun x => x.1.length)
      = some 20
    ∧ (20 : Nat) ≠ 3 := by
  exact ⟨rfl, by decide⟩

/-- Witness for C7 (amended) at a concrete input: the completed sweep
over axes [5] and [5] has 1 × 1 × 20 rows. -/
theorem sweep_rows_witness :
    (experimentVaryingSynapseSampling cWorld [5] [5] 0).map (fun x => x.1.length)
      = some ([(5 : Int)].length * [(5 : Int)].length * 20)
    ∧ (∀ (p d : Int) (rpt : Nat),
        List.lookup "trialNum" (sweepConfig p d rpt : PyDict CObjs) = some (PyVal.int rpt)
        ∧ List.lookup "objectSeed" (sweepConfig p d rpt : PyDict CObjs)
            = some (PyVal.int rpt)) :=
  sweep_rows cWorld [5] [5] 0 rfl

end SynapseSampling
